import Mathlib

/-!
# Verification of the single-file bundler (`scripts/build-singlefile.py`)

Shallow embedding of the import-flattening and import-map synthesis engine:
the regex scan for `import ... from '...'` statements, POSIX path joining and
normalization (`pathlib.PurePosixPath`, `os.path.normpath`), source-map
stripping, percent-encoding, import-map construction and HTML injection.

Strings are modeled as `List Char` / `String` (Python `str`).  The regex
character class `\s` is modeled by the ASCII whitespace characters; `.`
matches every character except the newline, as in Python without `DOTALL`.
`str.replace(old, new, 1)` replaces the first occurrence (the `count=1`
semantics of the call in `flatten_imports`).
-/

/-- ASCII whitespace, the characters matched by the regex class `\s`. -/
def isSpaceC (c : Char) : Bool :=
  c == ' ' || c == '\t' || c == '\n' || c == '\r' || c.toNat == 11 || c.toNat == 12

/-- The quote character class of the import pattern: a single or a double quote. -/
def isQuoteC (c : Char) : Bool :=
  c == '"' || c.toNat == 39

/-- Number of leading whitespace characters (maximal extent of a greedy `\s+`). -/
def leadSpaces : List Char → Nat
  | [] => 0
  | c :: rest => if isSpaceC c then leadSpaces rest + 1 else 0

/-- `isPre p s` is `str.startswith`: `p` is a prefix of `s`. -/
def isPre : List Char → List Char → Bool
  | [], _ => true
  | _ :: _, [] => false
  | a :: as, b :: bs => a == b && isPre as bs

/-- The lazy group 2 and its closing quote: the shortest run of non-newline
characters up to the first quote.  Returns group 2, group 3, remaining input. -/
def matchG2 : List Char → Option (List Char × Char × List Char)
  | [] => none
  | c :: rest =>
    if isQuoteC c then some ([], c, rest)
    else if c == '\n' then none
    else
      match matchG2 rest with
      | some (g2, g3, r) => some (c :: g2, g3, r)
      | none => none

/-- After the literal `from`: greedy `\s+`, an opening quote, then the lazy
group 2 and its closing quote.  Returns (consumed text, group2, group3, rest).
The greedy `\s+` is deterministic here: with fewer than the maximal number of
whitespace characters the next character is whitespace, not a quote. -/
def matchTail (s : List Char) : Option (List Char × List Char × Char × List Char) :=
  let n := leadSpaces s
  if n == 0 then none
  else
    match s.drop n with
    | [] => none
    | q :: rest =>
      if isQuoteC q then
        match matchG2 rest with
        | some (g2, g3, r) => some (s.take n ++ [q], g2, g3, r)
        | none => none
      else none

/-- `\s+from` followed by `matchTail`: greedy `\s+`, the literal `from`, then
the rest of the pattern.  Deterministic for the same reason as `matchTail`
(`f` is not whitespace). -/
def matchFromTail (s : List Char) : Option (List Char × List Char × Char × List Char) :=
  let n := leadSpaces s
  if n == 0 then none
  else
    let s2 := s.drop n
    if s2.take 4 == "from".data then
      match matchTail (s2.drop 4) with
      | some (c3, g2, g3, r) => some (s.take n ++ "from".data ++ c3, g2, g3, r)
      | none => none
    else none

/-- The lazy `.*?` before `\s+from`: at each position first try the rest of
the pattern (shortest match wins), otherwise absorb one non-newline character. -/
def matchLazy : List Char → Option (List Char × List Char × Char × List Char)
  | [] => none
  | c :: rest =>
    match matchFromTail (c :: rest) with
    | some r => some r
    | none =>
      if c == '\n' then none
      else
        match matchLazy rest with
        | some (cs, g2, g3, r) => some (c :: cs, g2, g3, r)
        | none => none

/-- Greedy `\s+` directly after `import`: try the maximal number `k` of
whitespace characters first, backtracking down to 1. -/
def tryS1 : Nat → List Char → Option (List Char × List Char × Char × List Char)
  | 0, _ => none
  | k + 1, s =>
    match matchLazy (s.drop (k + 1)) with
    | some (cs, g2, g3, r) => some (s.take (k + 1) ++ cs, g2, g3, r)
    | none => tryS1 k s

/-- One regex match: group 1 is everything through the opening quote, group 2
is the matched path, group 3 is the closing quote. -/
structure RMatch where
  g1 : List Char
  g2 : List Char
  g3 : Char
deriving DecidableEq, Repr

/-- The full text of a match (`match[0]` in the source): groups 1, 2, 3. -/
def stmtOf (m : RMatch) : List Char := m.g1 ++ m.g2 ++ [m.g3]

/-- Try to match the import pattern anchored at the start of `s`; on success
return the match and the input remaining after it. -/
def matchAt (s : List Char) : Option (RMatch × List Char) :=
  if s.take 6 == "import".data then
    let s2 := s.drop 6
    match tryS1 (leadSpaces s2) s2 with
    | some (cs, g2, g3, r) => some (⟨"import".data ++ cs, g2, g3⟩, r)
    | none => none
  else none

/-- `re.finditer`: scan left to right, collecting non-overlapping matches and
resuming after each match.  Fuel is the input length; every match consumes at
least one character, so the fuel never runs out. -/
def findMatchesFuel : Nat → List Char → List RMatch
  | 0, _ => []
  | _ + 1, [] => []
  | n + 1, c :: rest =>
    match matchAt (c :: rest) with
    | some (m, r) => m :: findMatchesFuel n r
    | none => findMatchesFuel n rest

/-- All matches of the import pattern in `s`, in order of position. -/
def findMatches (s : List Char) : List RMatch := findMatchesFuel s.length s

/-- `str.replace(pat, new, 1)`: replace the first occurrence of `pat`. -/
def replaceFirst (pat new : List Char) : List Char → List Char
  | [] => if isPre pat [] then new else []
  | c :: rest =>
    if isPre pat (c :: rest) then new ++ (c :: rest).drop pat.length
    else c :: replaceFirst pat new rest

/-- `pat in s`: some suffix of `s` starts with `pat`. -/
def occursIn (pat : List Char) : List Char → Bool
  | [] => isPre pat []
  | c :: rest => isPre pat (c :: rest) || occursIn pat rest

/-- `pat` starts at none of the positions `0 .. n-1` of `s`. -/
def noOccurBefore (pat s : List Char) (n : Nat) : Bool :=
  (List.range n).all (fun i => !(isPre pat (s.drop i)))

/-! ## POSIX path model (`pathlib.PurePosixPath`, `os.path.normpath`) -/

/-- A parsed `PurePosixPath`: the number of root slashes (0 = relative, 1 =
`/`, 2 = the special POSIX root `//`) and the non-empty, non-`.` segments. -/
structure PPath where
  absSlashes : Nat
  parts : List String
deriving DecidableEq, Repr

/-- Number of leading `/` characters. -/
def leadSlashes : List Char → Nat
  | [] => 0
  | c :: rest => if c == '/' then leadSlashes rest + 1 else 0

/-- `str.split("/")` (kernel-reducible): split at every slash, keeping empty
segments, with `""` splitting to `[""]`. -/
def splitOnSlashAux : List Char → List Char → List String
  | [], acc => [String.mk acc.reverse]
  | c :: rest, acc =>
    if c == '/' then String.mk acc.reverse :: splitOnSlashAux rest []
    else splitOnSlashAux rest (c :: acc)

/-- `str.split("/")` on a string. -/
def splitOnSlash (s : String) : List String := splitOnSlashAux s.data []

/-- `sep.join(parts)` (kernel-reducible). -/
def joinWith (sep : String) : List String → String
  | [] => ""
  | [s] => s
  | s :: rest => s ++ sep ++ joinWith sep rest

/-- `PurePosixPath(s)`: exactly two leading slashes give the `//` root, any
other positive number gives `/`; empty and `.` segments are dropped. -/
def ppParse (s : String) : PPath :=
  let n := leadSlashes s.data
  let root := if n == 0 then 0 else if n == 2 then 2 else 1
  ⟨root, (splitOnSlash s).filter (fun seg => seg != "" && seg != ".")⟩

/-- `str(PurePosixPath)`: the root slashes followed by the joined segments;
an empty relative path prints as `.`. -/
def ppStr (p : PPath) : String :=
  let rootStr := String.mk (List.replicate p.absSlashes '/')
  if p.parts = [] then
    if p.absSlashes = 0 then "." else rootStr
  else rootStr ++ joinWith "/" p.parts

/-- `PurePosixPath.parent`: drop the final segment (the parent of a root or
of `.` is itself). -/
def ppParent (p : PPath) : PPath := ⟨p.absSlashes, p.parts.dropLast⟩

/-- `PurePosixPath.joinpath`: an absolute right operand replaces the left
one, otherwise the segments are concatenated. -/
def ppJoin (p q : PPath) : PPath :=
  if q.absSlashes ≠ 0 then q else ⟨p.absSlashes, p.parts ++ q.parts⟩

/-- One step of the component loop of `posixpath.normpath`. -/
def normStep (initialSlashes : Nat) (acc : List String) (comp : String) : List String :=
  if comp = "" ∨ comp = "." then acc
  else if comp ≠ ".." ∨ (initialSlashes = 0 ∧ acc = []) ∨ acc.getLast? = some ".." then
    acc ++ [comp]
  else if acc = [] then acc
  else acc.dropLast

/-- `os.path.normpath` for POSIX paths, following `posixpath.normpath`:
collapse empty and `.` segments and resolve `..` against preceding
segments. -/
def pyNormpath (path : String) : String :=
  if path = "" then "."
  else
    let initialSlashes : Nat :=
      if isPre "//".data path.data && !isPre "///".data path.data then 2
      else if isPre "/".data path.data then 1
      else 0
    let newComps := (splitOnSlash path).foldl (normStep initialSlashes) []
    let res := String.mk (List.replicate initialSlashes '/') ++ joinWith "/" newComps
    if res = "" then "." else res

/-- The flat path computed by `flatten_imports` for one match: parse the
matched path, join it onto the parent of the flat specifier of the module,
and normalize (`os.path.normpath(path.parent.joinpath(import_path))`). -/
def flatPath (filePath importPath : String) : String :=
  pyNormpath (ppStr (ppJoin (ppParent (ppParse filePath)) (ppParse importPath)))

/-- `Path.relative_to`: the roots must agree and the root segments must be a
prefix of the file segments; the result is the remaining relative path. -/
def listPreStr : List String → List String → Bool
  | [], _ => true
  | _ :: _, [] => false
  | a :: as, b :: bs => a == b && listPreStr as bs

/-- `file.relative_to(root)` (`none` models the `ValueError`). -/
def relativeTo (file root : String) : Option String :=
  let f := ppParse file
  let r := ppParse root
  if f.absSlashes = r.absSlashes ∧ listPreStr r.parts f.parts then
    some (ppStr ⟨0, f.parts.drop r.parts.length⟩)
  else none

/-! ## The import flattener (`flatten_imports`) -/

/-- `import_path.startswith("http://") or import_path.startswith("https://")`. -/
def httpPath (g2 : List Char) : Bool :=
  isPre "http://".data g2 || isPre "https://".data g2

/-- The body of the loop of `flatten_imports` for one match: skip absolute
URLs, otherwise replace the first occurrence of the matched text with the
same statement built around the flat path. -/
def flattenStep (parentPP : PPath) (cont : List Char) (m : RMatch) : List Char :=
  if httpPath m.g2 then cont
  else
    replaceFirst (stmtOf m)
      (m.g1 ++ (pyNormpath (ppStr (ppJoin parentPP (ppParse (String.mk m.g2))))).data ++ [m.g3])
      cont

/-- `flatten_imports(file_path, content)`: fold the replacement over the
matches found in the original content. -/
def flattenImports (filePath content : String) : String :=
  String.mk ((findMatches content.data).foldl (flattenStep (ppParent (ppParse filePath))) content.data)

/-- The replacement text `flatten_imports` substitutes for a relative match. -/
def newTextOf (filePath : String) (m : RMatch) : List Char :=
  m.g1 ++ (flatPath filePath (String.mk m.g2)).data ++ [m.g3]

/-! ## Source-map stripping -/

/-- The literal head of the source-map pattern `//# sourceMappingURL=.*`. -/
def smMarker : List Char := "//# sourceMappingURL=".data

/-- The greedy `.*`: consume up to (but not including) the next newline. -/
def dropRestOfLine : List Char → List Char
  | [] => []
  | c :: rest => if c == '\n' then c :: rest else dropRestOfLine rest

/-- Delete the first occurrence of `//# sourceMappingURL=.*` (to end of line). -/
def stripSMList : List Char → List Char
  | [] => []
  | c :: rest =>
    if isPre smMarker (c :: rest) then dropRestOfLine ((c :: rest).drop smMarker.length)
    else c :: stripSMList rest

/-- `re.sub(r"//# sourceMappingURL=.*", "", content, count=1)`. -/
def stripSourceMap (content : String) : String := String.mk (stripSMList content.data)

/-! ## MIME classification and the per-file pipeline of `main` -/

/-- The three MIME classifications of `mime_type`. -/
inductive Mime
  | js
  | wasm
  | plain
deriving DecidableEq, Repr

/-- Index of the last `.` in a list, if any (`str.rfind(".")`). -/
def rfindDot : List Char → Option Nat
  | [] => none
  | c :: rest =>
    match rfindDot rest with
    | some i => some (i + 1)
    | none => if c == '.' then some 0 else none

/-- `Path.suffix`: the extension of the final component, empty when the last
dot is leading or trailing. -/
def pySuffix (p : String) : String :=
  let name := ((ppParse p).parts.getLast?).getD ""
  match rfindDot name.data with
  | some i => if 0 < i ∧ i < name.data.length - 1 then String.mk (name.data.drop i) else ""
  | none => ""

/-- `mime_type`: classification by file extension, compared case-sensitively. -/
def mime_type (p : String) : Mime :=
  if pySuffix p = ".js" then Mime.js
  else if pySuffix p = ".wasm" then Mime.wasm
  else Mime.plain

/-- The charset-qualified MIME string `mime_encoding` built in `main`:
`;charset=utf-8` is appended for the script and plain-text classifications
only. -/
def mimeEncoding : Mime → String
  | Mime.js => "application/javascript;charset=utf-8"
  | Mime.plain => "text/plain;charset=utf-8"
  | Mime.wasm => "application/wasm"

/-- Uppercase hexadecimal digit (percent-encoding uses uppercase hex). -/
def hexU (n : Nat) : Char := if n < 10 then Char.ofNat (48 + n) else Char.ofNat (55 + n)

/-- UTF-8 encoding of a code point, as the list of its byte values. -/
def utf8Bytes (n : Nat) : List Nat :=
  if n < 128 then [n]
  else if n < 2048 then [192 + n / 64, 128 + n % 64]
  else if n < 65536 then [224 + n / 4096, 128 + n / 64 % 64, 128 + n % 64]
  else [240 + n / 262144, 128 + n / 4096 % 64, 128 + n / 64 % 64, 128 + n % 64]

/-- The characters `urllib.parse.quote` leaves unencoded: ASCII letters,
digits, `_.-~` and the default safe character `/`. -/
def quoteSafe (c : Char) : Bool :=
  (Nat.ble 65 c.toNat && Nat.ble c.toNat 90) ||
  (Nat.ble 97 c.toNat && Nat.ble c.toNat 122) ||
  (Nat.ble 48 c.toNat && Nat.ble c.toNat 57) ||
  c == '_' || c == '.' || c == '-' || c == '~' || c == '/'

/-- `urllib.parse.quote(s)`: percent-encode the UTF-8 bytes of every unsafe
character, uppercase hex. -/
def pyQuote (s : String) : String :=
  String.mk (s.data.flatMap (fun c =>
    if quoteSafe c then [c]
    else (utf8Bytes c.toNat).flatMap (fun b => ['%', hexU (b / 16), hexU (b % 16)])))

/-- The content `main` registers for a file: scripts are source-map-stripped
and import-flattened, everything else passes through. -/
def processedContent (relpath content : String) : String :=
  if mime_type relpath = Mime.js then flattenImports relpath (stripSourceMap content)
  else content

/-- One iteration of the input loop of `main`: the flat specifier paired with
its data URI `data:<mime_encoding>,<percent-encoded processed content>`. -/
def processFile (relpath content : String) : String × String :=
  (relpath, "data:" ++ mimeEncoding (mime_type relpath) ++ "," ++ pyQuote (processedContent relpath content))

/-- Python `dict` insertion: an existing key is overwritten in place,
a new key is appended. -/
def dictInsert (m : List (String × String)) (k v : String) : List (String × String) :=
  if m.any (fun p => p.1 == k) then m.map (fun p => if p.1 == k then (k, v) else p)
  else m ++ [(k, v)]

/-- The accumulated `importmap["imports"]` after processing the input files,
given as (flat specifier, content) pairs. -/
def buildImports (files : List (String × String)) : List (String × String) :=
  files.foldl (fun m f => dictInsert m (processFile f.1 f.2).1 (processFile f.1 f.2).2) []

/-! ## Import-map serialization (`json.dumps(importmap, indent=2)`) -/

/-- Lowercase hexadecimal digit (JSON `\uXXXX` escapes use lowercase hex). -/
def hexL (n : Nat) : Char := if n < 10 then Char.ofNat (48 + n) else Char.ofNat (87 + n)

/-- A JSON `\uXXXX` escape sequence. -/
def u4 (n : Nat) : List Char :=
  [Char.ofNat 92, 'u', hexL (n / 4096 % 16), hexL (n / 256 % 16), hexL (n / 16 % 16), hexL (n % 16)]

/-- `json.dumps` string escaping with `ensure_ascii` (the default): short
escapes for quote, backslash and common controls, `\uXXXX` for the other
controls and for every non-ASCII character (surrogate pairs beyond U+FFFF). -/
def jsonEscapeChar (c : Char) : List Char :=
  if c == '"' then [Char.ofNat 92, '"']
  else if c.toNat == 92 then [Char.ofNat 92, Char.ofNat 92]
  else if c.toNat == 8 then [Char.ofNat 92, 'b']
  else if c == '\t' then [Char.ofNat 92, 't']
  else if c == '\n' then [Char.ofNat 92, 'n']
  else if c.toNat == 12 then [Char.ofNat 92, 'f']
  else if c == '\r' then [Char.ofNat 92, 'r']
  else if Nat.ble 32 c.toNat && Nat.ble c.toNat 126 then [c]
  else if c.toNat < 65536 then u4 c.toNat
  else u4 (55296 + (c.toNat - 65536) / 1024) ++ u4 (56320 + (c.toNat - 65536) % 1024)

/-- A JSON string literal. -/
def jsonQuote (s : String) : String :=
  String.mk ('"' :: s.data.flatMap jsonEscapeChar ++ ['"'])

/-- The serialization of the inner `imports` object at indent level 1
(entries indented four spaces, closing brace two). -/
def dumpsInner (m : List (String × String)) : String :=
  if m = [] then "\x7b\x7d"
  else
    "\x7b\n" ++
      joinWith ",\n" (m.map (fun p => "    " ++ jsonQuote p.1 ++ ": " ++ jsonQuote p.2)) ++
      "\n  \x7d"

/-- `json.dumps({"imports": ...}, indent=2)`: the single-key outer object. -/
def dumpsImportmap (m : List (String × String)) : String :=
  "\x7b\n  " ++ jsonQuote "imports" ++ ": " ++ dumpsInner m ++ "\n\x7d"

/-- `get_importmap_script`: the serialized map wrapped in a script tag. -/
def getImportmapScript (m : List (String × String)) : String :=
  "<script type=\"importmap\">\n" ++ dumpsImportmap m ++ "\n</script>"

/-! ## HTML injection -/

/-- `re.sub(r"</head>", f"{importmap_tag}\n</head>", html, count=1)`: replace
the first occurrence of the literal `</head>`.  The replacement string is
modeled literally; the tags this program builds from ASCII file names contain
no backslash, so `re.sub` replacement-escape processing is the identity on
them. -/
def injectImportmap (tag html : String) : String :=
  String.mk (replaceFirst "</head>".data (tag.data ++ ('\n' :: "</head>".data)) html.data)

/-- Full bundling mode: the text `main` writes to the output file, from the
input files (as (flat specifier, content) pairs) and the host document. -/
def bundleRun (files : List (String × String)) (html : String) : String :=
  injectImportmap (getImportmapScript (buildImports files)) html

/-- Lowercasing of ASCII letters, used to speak about case variants of an
extension. -/
def asciiLower (s : String) : String := String.mk (s.data.map Char.toLower)

/-- Printable ASCII with no quote or backslash: keys made of such characters
are serialized verbatim by `jsonQuote`. -/
def plainAsciiB (s : String) : Bool :=
  s.data.all (fun c => Nat.ble 32 c.toNat && Nat.ble c.toNat 126 && c != '"' && c.toNat != 92)

/-! ## Helper lemmas -/

theorem isPre_append_self (p t : List Char) : isPre p (p ++ t) = true := by
  induction p with
  | nil => rfl
  | cons a as ih => simp [isPre, ih]

theorem noOccurBefore_iff (pat s : List Char) (n : Nat) :
    noOccurBefore pat s n = true ↔ ∀ i < n, isPre pat (s.drop i) = false := by
  simp [noOccurBefore, List.all_eq_true, Bool.not_eq_true']

theorem replaceFirst_head (pat new Y : List Char) :
    replaceFirst pat new (pat ++ Y) = new ++ Y := by
  cases pat with
  | nil =>
    cases Y with
    | nil => simp [replaceFirst, isPre]
    | cons d ds => simp [replaceFirst, isPre]
  | cons p ps =>
    have hp : isPre (p :: ps) (p :: (ps ++ Y)) = true := isPre_append_self (p :: ps) Y
    show replaceFirst (p :: ps) new (p :: (ps ++ Y)) = new ++ Y
    simp only [replaceFirst]
    rw [if_pos hp]
    simp [List.drop_left ps Y]

theorem replaceFirst_split (pat new s X Y : List Char)
    (hs : s = X ++ (pat ++ Y))
    (h : noOccurBefore pat s X.length = true) :
    replaceFirst pat new s = X ++ (new ++ Y) := by
  subst hs
  rw [noOccurBefore_iff] at h
  induction X with
  | nil => simpa using replaceFirst_head pat new Y
  | cons c X ih =>
    have h0 : isPre pat (c :: (X ++ (pat ++ Y))) = false := by
      simpa using h 0 (Nat.succ_pos _)
    have h0' : ¬ isPre pat (c :: (X ++ (pat ++ Y))) = true := by simp [h0]
    show replaceFirst pat new (c :: (X ++ (pat ++ Y))) = (c :: X) ++ (new ++ Y)
    simp only [replaceFirst]
    rw [if_neg h0']
    simp only [List.cons_append, List.cons_inj_right]
    exact ih (fun i hi => by
      have := h (i + 1) (Nat.succ_lt_succ hi)
      simpa using this)

theorem replaceFirst_no_occ (pat new s : List Char)
    (h : occursIn pat s = false) : replaceFirst pat new s = s := by
  induction s with
  | nil =>
    simp only [occursIn] at h
    simp [replaceFirst, h]
  | cons c rest ih =>
    simp only [occursIn, Bool.or_eq_false_iff] at h
    have h1 : ¬ isPre pat (c :: rest) = true := by simp [h.1]
    simp only [replaceFirst]
    rw [if_neg h1]
    simp [ih h.2]

theorem foldl_flattenStep_all_http (pp : PPath) (ms : List RMatch) (c : List Char)
    (h : ∀ m ∈ ms, httpPath m.g2 = true) :
    ms.foldl (flattenStep pp) c = c := by
  induction ms generalizing c with
  | nil => rfl
  | cons m ms ih =>
    have hm := h m (List.mem_cons_self m ms)
    have hstep : flattenStep pp c m = c := by simp [flattenStep, hm]
    rw [List.foldl_cons, hstep]
    exact ih c (fun x hx => h x (List.mem_cons_of_mem m hx))

theorem foldl_flattenStep_filter (pp : PPath) (ms : List RMatch) (c : List Char) :
    ms.foldl (flattenStep pp) c
      = (ms.filter (fun m => !httpPath m.g2)).foldl (flattenStep pp) c := by
  induction ms generalizing c with
  | nil => rfl
  | cons m ms ih =>
    cases hm : httpPath m.g2 with
    | true =>
      have hstep : flattenStep pp c m = c := by simp [flattenStep, hm]
      have hfil : List.filter (fun x => !httpPath x.g2) (m :: ms)
          = List.filter (fun x => !httpPath x.g2) ms := by
        simp [List.filter_cons, hm]
      rw [List.foldl_cons, hstep, hfil]
      exact ih c
    | false =>
      have hfil : List.filter (fun x => !httpPath x.g2) (m :: ms)
          = m :: List.filter (fun x => !httpPath x.g2) ms := by
        simp [List.filter_cons, hm]
      rw [List.foldl_cons, hfil, List.foldl_cons]
      exact ih (flattenStep pp c m)

/-! ## Claims -/

/-- C1 (counterexample): with root `/proj` and input `/proj/a/b.js` (flat
specifier `a/b.js`) containing `import x from "../c.js"`, the flattener does
NOT rewrite the import path to `a/c.js`: resolving `..` against the module's
own directory `a/` leaves the root directory's `c.js`. -/
theorem flatten_scenario_not_a_c :
    relativeTo "/proj/a/b.js" "/proj" = some "a/b.js" ∧
    flattenImports "a/b.js" "import x from \"../c.js\"" ≠ "import x from \"a/c.js\"" := by
  constructor
  · decide
  · decide

/-- C1 (amended): with root `/proj` and input `/proj/a/b.js` (flat specifier
`a/b.js`) whose source holds one import of `../c.js`, the flattener rewrites
that path to `c.js`, the specifier of `/proj/c.js` relative to the root. -/
theorem flatten_scenario_resolves_to_root_c :
    relativeTo "/proj/a/b.js" "/proj" = some "a/b.js" ∧
    flattenImports "a/b.js" "import x from \"../c.js\"" = "import x from \"c.js\"" := by
  constructor
  · decide
  · decide

/-- C9: a matched import path that is not `http(s)://` is joined onto the
directory of the importing module even for a bare npm-style specifier: the
module with flat specifier `a/b.js` importing `react` gets `a/react`. -/
theorem bare_specifier_joined_onto_directory :
    flattenImports "a/b.js" "import x from \"react\"" = "import x from \"a/react\"" ∧
    flatPath "a/b.js" "react" = "a/react" := by
  constructor
  · decide
  · decide

/-- C2 (counterexample): on a host document with no `</head>` marker the run
does not abort: the written output exists and is exactly the unmodified host
document. -/
theorem missing_head_marker_still_writes_unmodified :
    occursIn "</head>".data "<html><body></body></html>".data = false ∧
    bundleRun [] "<html><body></body></html>" = "<html><body></body></html>" := by
  constructor
  · decide
  · decide

/-- C2 (amended): in full bundling mode, when the host document contains no
`</head>` marker, the substitution is a no-op and the run writes an
unmodified copy of the host document to the output file; no error is
raised. -/
theorem missing_head_marker_writes_unmodified (files : List (String × String)) (html : String)
    (h : occursIn "</head>".data html.data = false) :
    bundleRun files html = html := by
  unfold bundleRun injectImportmap
  rw [replaceFirst_no_occ _ _ _ h]

theorem missing_head_marker_writes_unmodified_witness :
    bundleRun [("x.js", "let a = 1;")] "<html><body>no head</body></html>"
      = "<html><body>no head</body></html>" :=
  missing_head_marker_writes_unmodified [("x.js", "let a = 1;")] "<html><body>no head</body></html>"
    (by decide)

/-- C3: for a script none of whose matched imports has a relative path (all
matches are `http(s)://` URLs, or there are no matches at all), the
script-processing step is the identity except for source-map removal: the
processed text is the input text with the `//# sourceMappingURL=` directive
stripped. -/
theorem no_relative_imports_noop (relpath content : String)
    (hjs : mime_type relpath = Mime.js)
    (h : ∀ m ∈ findMatches (stripSourceMap content).data, httpPath m.g2 = true) :
    processedContent relpath content = stripSourceMap content := by
  unfold processedContent
  rw [if_pos hjs]
  unfold flattenImports
  exact congrArg String.mk (foldl_flattenStep_all_http _ _ _ h)

theorem no_relative_imports_noop_witness :
    processedContent "a/b.js" "import q from \"https://cdn/x.js\"\n//# sourceMappingURL=x.map"
      = stripSourceMap "import q from \"https://cdn/x.js\"\n//# sourceMappingURL=x.map" :=
  no_relative_imports_noop "a/b.js" "import q from \"https://cdn/x.js\"\n//# sourceMappingURL=x.map"
    (by decide) (by decide)

/-- C8: when two input files have the same flat specifier, registering the
second overwrites the first entry (last-write-wins): the resulting map has a
single binding for that specifier, holding the data URI of the
later-processed file, and no error is raised. -/
theorem duplicate_specifier_last_write_wins (r1 c1 r2 c2 : String) (h : r1 = r2) :
    buildImports [(r1, c1), (r2, c2)] = [(r2, (processFile r2 c2).2)] := by
  subst h
  have h1 : (processFile r1 c1).1 = r1 := rfl
  have h2 : (processFile r1 c2).1 = r1 := rfl
  have e1 : dictInsert [] (processFile r1 c1).1 (processFile r1 c1).2
      = [(r1, (processFile r1 c1).2)] := rfl
  unfold buildImports
  simp only [List.foldl_cons, List.foldl_nil]
  rw [e1]
  unfold dictInsert
  simp [h2]

theorem duplicate_specifier_last_write_wins_witness :
    buildImports [("x.js", "aa"), ("x.js", "bb")] = [("x.js", (processFile "x.js" "bb").2)] :=
  duplicate_specifier_last_write_wins "x.js" "aa" "x.js" "bb" rfl

/-- C10: extension classification is case-sensitive: a suffix that is an
upper- or mixed-case variant of `.js` classifies as `text/plain`, so the
content is registered unchanged (neither source-map-stripped nor flattened)
under the MIME `text/plain;charset=utf-8`. -/
theorem uppercase_js_suffix_treated_as_plain (relpath content : String)
    (h1 : asciiLower (pySuffix relpath) = ".js")
    (h2 : pySuffix relpath ≠ ".js") :
    mime_type relpath = Mime.plain ∧
    processFile relpath content
      = (relpath, "data:" ++ "text/plain;charset=utf-8" ++ "," ++ pyQuote content) := by
  have hw : pySuffix relpath ≠ ".wasm" := by
    intro he
    rw [he] at h1
    exact absurd h1 (by decide)
  have hmime : mime_type relpath = Mime.plain := by
    unfold mime_type
    rw [if_neg h2, if_neg hw]
  refine ⟨hmime, ?_⟩
  unfold processFile processedContent
  rw [hmime]
  simp [mimeEncoding]

theorem uppercase_js_suffix_treated_as_plain_witness :
    mime_type "x/B.JS" = Mime.plain ∧
    processFile "x/B.JS" "import q from \"./z.js\""
      = ("x/B.JS", "data:" ++ "text/plain;charset=utf-8" ++ "," ++ pyQuote "import q from \"./z.js\"") :=
  uppercase_js_suffix_treated_as_plain "x/B.JS" "import q from \"./z.js\"" (by decide) (by decide)

/-- For a match whose path is not an absolute URL, the loop body of
`flatten_imports` replaces the first occurrence of the matched text by the
statement rebuilt around the flat path. -/
theorem flattenStep_rel (spec : String) (c : List Char) (m : RMatch)
    (h : httpPath m.g2 = false) :
    flattenStep (ppParent (ppParse spec)) c m
      = replaceFirst (stmtOf m) (newTextOf spec m) c := by
  unfold flattenStep newTextOf flatPath
  rw [if_neg (by simp [h])]

/-- C5: a matched import whose path does not start with `http://` or
`https://` is rewritten to the path obtained by joining it onto the directory
of the importing script's own flat specifier and normalizing (collapsing `.`
and `..`); in particular specifier `a/b/c.js` importing `../../d.js` yields
`d.js`. -/
theorem relative_import_resolved_against_own_dir (spec : String) (m : RMatch) (A B : List Char)
    (hrel : httpPath m.g2 = false)
    (hm : findMatches (A ++ (stmtOf m ++ B)) = [m])
    (h1 : noOccurBefore (stmtOf m) (A ++ (stmtOf m ++ B)) A.length = true) :
    flattenImports spec (String.mk (A ++ (stmtOf m ++ B)))
      = String.mk (A ++ (newTextOf spec m ++ B)) ∧
    flatPath "a/b/c.js" "../../d.js" = "d.js" := by
  constructor
  · show String.mk ((findMatches (A ++ (stmtOf m ++ B))).foldl
        (flattenStep (ppParent (ppParse spec))) (A ++ (stmtOf m ++ B)))
      = String.mk (A ++ (newTextOf spec m ++ B))
    rw [hm]
    simp only [List.foldl_cons, List.foldl_nil]
    rw [flattenStep_rel spec _ m hrel]
    rw [replaceFirst_split (stmtOf m) (newTextOf spec m) _ A B rfl h1]
  · decide

theorem relative_import_resolved_against_own_dir_witness :
    flattenImports "a/b/c.js"
        (String.mk (([] : List Char)
          ++ (stmtOf ⟨"import y from \"".data, "../../d.js".data, '"'⟩ ++ [])))
      = String.mk (([] : List Char)
          ++ (newTextOf "a/b/c.js" ⟨"import y from \"".data, "../../d.js".data, '"'⟩ ++ [])) ∧
    flatPath "a/b/c.js" "../../d.js" = "d.js" :=
  relative_import_resolved_against_own_dir "a/b/c.js"
    ⟨"import y from \"".data, "../../d.js".data, '"'⟩ [] []
    (by decide) (by decide) (by decide)

/-- C4: a script containing two textually identical relative import
statements has each occurrence rewritten exactly once: the first replacement
targets the first occurrence, and the second replacement targets the second
occurrence because the first has already been rewritten, so neither is
corrected twice and neither is left uncorrected. -/
theorem duplicate_relative_imports_each_rewritten_once (spec : String) (m : RMatch)
    (A B C : List Char)
    (hrel : httpPath m.g2 = false)
    (hm : findMatches (A ++ (stmtOf m ++ (B ++ (stmtOf m ++ C)))) = [m, m])
    (h1 : noOccurBefore (stmtOf m) (A ++ (stmtOf m ++ (B ++ (stmtOf m ++ C)))) A.length = true)
    (h2 : noOccurBefore (stmtOf m) (A ++ (newTextOf spec m ++ (B ++ (stmtOf m ++ C))))
        (A.length + ((newTextOf spec m).length + B.length)) = true) :
    flattenImports spec (String.mk (A ++ (stmtOf m ++ (B ++ (stmtOf m ++ C)))))
      = String.mk (A ++ (newTextOf spec m ++ (B ++ (newTextOf spec m ++ C)))) := by
  show String.mk ((findMatches (A ++ (stmtOf m ++ (B ++ (stmtOf m ++ C))))).foldl
      (flattenStep (ppParent (ppParse spec))) (A ++ (stmtOf m ++ (B ++ (stmtOf m ++ C)))))
    = String.mk (A ++ (newTextOf spec m ++ (B ++ (newTextOf spec m ++ C))))
  rw [hm]
  simp only [List.foldl_cons, List.foldl_nil]
  rw [flattenStep_rel spec (A ++ (stmtOf m ++ (B ++ (stmtOf m ++ C)))) m hrel]
  rw [replaceFirst_split (stmtOf m) (newTextOf spec m) _ A (B ++ (stmtOf m ++ C)) rfl h1]
  rw [flattenStep_rel spec (A ++ (newTextOf spec m ++ (B ++ (stmtOf m ++ C)))) m hrel]
  have hs2 : A ++ (newTextOf spec m ++ (B ++ (stmtOf m ++ C)))
      = (A ++ (newTextOf spec m ++ B)) ++ (stmtOf m ++ C) := by
    simp [List.append_assoc]
  have h2' : noOccurBefore (stmtOf m) (A ++ (newTextOf spec m ++ (B ++ (stmtOf m ++ C))))
      (A ++ (newTextOf spec m ++ B)).length = true := by
    simpa [List.length_append, Nat.add_assoc] using h2
  rw [replaceFirst_split (stmtOf m) (newTextOf spec m) _
    (A ++ (newTextOf spec m ++ B)) C hs2 h2']
  congr 1
  simp [List.append_assoc]

theorem duplicate_relative_imports_each_rewritten_once_witness :
    flattenImports "d/m.js"
        (String.mk (([] : List Char)
          ++ (stmtOf ⟨"import x from \"".data, "./a.js".data, '"'⟩
            ++ ("\n".data ++ (stmtOf ⟨"import x from \"".data, "./a.js".data, '"'⟩ ++ "\n".data)))))
      = String.mk (([] : List Char)
          ++ (newTextOf "d/m.js" ⟨"import x from \"".data, "./a.js".data, '"'⟩
            ++ ("\n".data
              ++ (newTextOf "d/m.js" ⟨"import x from \"".data, "./a.js".data, '"'⟩ ++ "\n".data)))) :=
  duplicate_relative_imports_each_rewritten_once "d/m.js"
    ⟨"import x from \"".data, "./a.js".data, '"'⟩ [] "\n".data "\n".data
    (by decide) (by decide) (by decide) (by decide)

/-- C6: import statements whose path starts with `http://` or `https://` are
never the target of a rewrite — dropping them from the match list leaves the
flattener's output unchanged — and in a mixed script the absolute-URL import
statement passes through byte-identical while the relative one is
rewritten. -/
theorem absolute_url_imports_pass_through :
    (∀ spec content,
      flattenImports spec content
        = String.mk (((findMatches content.data).filter (fun m => !httpPath m.g2)).foldl
            (flattenStep (ppParent (ppParse spec))) content.data)) ∧
    flattenImports "m.js" "import a from \"https://e.com/x.js\"\nimport b from \"./y.js\""
      = "import a from \"https://e.com/x.js\"\nimport b from \"y.js\"" := by
  constructor
  · intro spec content
    exact congrArg String.mk (foldl_flattenStep_filter (ppParent (ppParse spec)) _ _)
  · decide

/-- C7: in full bundling mode with a host document containing `</head>`, the
output is the host document with exactly one import-map script block inserted
(followed by a newline) immediately before the first `</head>`; the block
wraps `json.dumps` output with two-space indentation whose single top-level
key is `imports`. -/
theorem importmap_injected_before_first_head (files : List (String × String)) (A B : List Char)
    (hfirst : noOccurBefore "</head>".data (A ++ ("</head>".data ++ B)) A.length = true)
    (_hkeys : files.all (fun f => plainAsciiB f.1) = true) :
    bundleRun files (String.mk (A ++ ("</head>".data ++ B)))
      = String.mk (A ++ ((getImportmapScript (buildImports files)).data
          ++ ('\n' :: ("</head>".data ++ B)))) ∧
    getImportmapScript (buildImports files)
      = "<script type=\"importmap\">\n" ++ dumpsImportmap (buildImports files) ++ "\n</script>" ∧
    dumpsImportmap (buildImports files)
      = "\x7b\n  \"imports\": " ++ dumpsInner (buildImports files) ++ "\n\x7d" := by
  refine ⟨?_, rfl, ?_⟩
  · show String.mk (replaceFirst "</head>".data
        ((getImportmapScript (buildImports files)).data ++ ('\n' :: "</head>".data))
        (A ++ ("</head>".data ++ B)))
      = String.mk (A ++ ((getImportmapScript (buildImports files)).data
          ++ ('\n' :: ("</head>".data ++ B))))
    rw [replaceFirst_split "</head>".data
      ((getImportmapScript (buildImports files)).data ++ ('\n' :: "</head>".data))
      _ A B rfl hfirst]
    congr 1
    simp [List.append_assoc]
  · have hx : ("\x7b\n  " ++ jsonQuote "imports" ++ ": " : String) = "\x7b\n  \"imports\": " := by
      decide
    unfold dumpsImportmap
    rw [← hx]

theorem importmap_injected_before_first_head_witness :
    bundleRun [("x.js", "")]
        (String.mk ("<html><head>".data ++ ("</head>".data ++ "<body></body></html>".data)))
      = String.mk ("<html><head>".data ++ ((getImportmapScript (buildImports [("x.js", "")])).data
          ++ ('\n' :: ("</head>".data ++ "<body></body></html>".data)))) ∧
    getImportmapScript (buildImports [("x.js", "")])
      = "<script type=\"importmap\">\n" ++ dumpsImportmap (buildImports [("x.js", "")])
          ++ "\n</script>" ∧
    dumpsImportmap (buildImports [("x.js", "")])
      = "\x7b\n  \"imports\": " ++ dumpsInner (buildImports [("x.js", "")]) ++ "\n\x7d" :=
  importmap_injected_before_first_head [("x.js", "")]
    "<html><head>".data "<body></body></html>".data (by decide) (by decide)
